import Mathlib

set_option synthInstance.maxSize 1024

/-!
Verification development for the vela-py-eh-api-server repository
(`src/index.py`): a Flask server fronting a cursor-paginated catalog with
TTL caches, concurrent image resolution, and an image transform proxy.

The Python source is shallowly embedded below.  External collaborators
(the HTTP transport `requests`, the HTML structure extraction done by
BeautifulSoup inside `EhParser`, and PIL's pixel-level codec work) are
modelled as oracle function parameters; all control flow, cache handling,
key construction, string building and arithmetic of `src/index.py` is
translated directly.
-/

namespace EhApiModel

/-! ## Python dict / `cachetools.cached` model

`cachetools.TTLCache` with `@cached` behaves, within the TTL window and
below capacity, like a mutable map: `wrapper(*args)` looks up
`hashkey(*args)`; on a hit it returns the stored value without calling the
body; on a miss it calls the body, stores whatever the body returned
(including `None`), and returns it.  Exceptions are the only thing not
stored, and every body in `src/index.py` catches its exceptions and
returns `None`.  We model the map as an association list with
insert-at-front / first-match-lookup (equivalent to dict get/set). -/

def dictGet {K V : Type} [DecidableEq K] : List (K × V) → K → Option V
  | [], _ => none
  | (k', v) :: rest, k => if k' = k then some v else dictGet rest k

/-- Result of one pass through the `@cached` wrapper: the returned value,
the cache afterwards, and whether the wrapped body was invoked
(`computed = false` means the call was served from the cache). -/
structure CachedCall (K V : Type) where
  value : V
  cache : List (K × V)
  computed : Bool
deriving DecidableEq

/-- `cachetools.cached` wrapper: hit returns stored value, miss runs the
body and stores its result (whatever it is, `None` included). -/
def cachedCall {K V : Type} [DecidableEq K] (cache : List (K × V)) (k : K)
    (compute : Unit → V) : CachedCall K V :=
  match dictGet cache k with
  | some v => ⟨v, cache, false⟩
  | none =>
    let v := compute ()
    ⟨v, (k, v) :: cache, true⟩

/-! ## Python string helpers -/

/-- Python truthiness of an optional string (`if not x:` on a value that is
either `None` or a `str`): falsy iff `None` or empty. -/
def optStrTruthy : Option String → Bool
  | none => false
  | some s => !s.isEmpty

/-- `str.strip()` on a character list: drop leading and trailing
whitespace (Python strips Unicode whitespace; the model uses Lean's
ASCII whitespace predicate, which agrees on the characters occurring in
this API's inputs). -/
def pyStripChars (l : List Char) : List Char :=
  ((l.dropWhile Char.isWhitespace).reverse.dropWhile Char.isWhitespace).reverse

/-- `str.strip()`. -/
def pyStrip (s : String) : String :=
  String.mk (pyStripChars s.toList)

/-- Digit run accepted by Python `int()` after the optional sign: ASCII
digits with single underscores allowed between digits (`int("1_0") = 10`,
but `int("_1")`, `int("1_")`, `int("1__0")` all raise). Accumulates the
value; `none` models `ValueError`. -/
def pyIntDigitsAux (acc : Nat) : List Char → Option Nat
  | [] => some acc
  | '_' :: c :: rest =>
    if c.isDigit then pyIntDigitsAux (acc * 10 + (c.toNat - 48)) rest else none
  | c :: rest =>
    if c.isDigit then pyIntDigitsAux (acc * 10 + (c.toNat - 48)) rest else none

def pyIntDigits : List Char → Option Nat
  | [] => none
  | c :: rest =>
    if c.isDigit then pyIntDigitsAux (c.toNat - 48) rest else none

/-- Python `int(str)`: strip surrounding whitespace, optional single
`+`/`-` sign, then a non-empty digit run.  `none` models `ValueError`.
(Non-ASCII digits, accepted by CPython, are outside the model.) -/
def pyInt? (s : String) : Option Int :=
  match pyStripChars s.toList with
  | '+' :: rest => (pyIntDigits rest).map Int.ofNat
  | '-' :: rest => (pyIntDigits rest).map (fun n => -(Int.ofNat n : Int))
  | l => (pyIntDigits l).map Int.ofNat

/-- Python `str.isdigit()` restricted to ASCII: non-empty and all digits. -/
def pyIsdigit (s : String) : Bool :=
  !s.isEmpty && s.toList.all Char.isDigit

/-! ## `decode_search_value` (src/index.py lines 40-64)

`urllib.parse.unquote` is modelled at character level: every `%XX` with
two hex digits is replaced by the character with code `XX`; invalid
sequences are left as-is and scanning continues after the `%`.  (CPython
additionally reassembles consecutive decoded bytes as UTF-8 with
`errors="replace"`; that step only merges adjacent decoded characters and
never reintroduces a `%XX` sequence, so it is orthogonal to the
properties proved here.) -/

def isHexDigitB (c : Char) : Bool :=
  c.isDigit || ('A' ≤ c && c ≤ 'F') || ('a' ≤ c && c ≤ 'f')

def hexVal (c : Char) : Nat :=
  if c.isDigit then c.toNat - 48
  else if 'a' ≤ c then c.toNat - 87
  else c.toNat - 55

/-- Does the list begin with a `%XX` escape (the regex
`%[0-9A-Fa-f]{2}` anchored at the head)? -/
def isEscapeAt : List Char → Bool
  | c :: a :: b :: _ => c == '%' && isHexDigitB a && isHexDigitB b
  | _ => false

/-- `re.search(r"%[0-9A-Fa-f]{2}", value)`: some position starts an
escape. -/
def hasPercentEscape : List Char → Bool
  | [] => false
  | c :: rest => isEscapeAt (c :: rest) || hasPercentEscape rest

/-- One `urllib.parse.unquote` pass. -/
def unquoteL : List Char → List Char
  | c :: a :: b :: rest2 =>
    if c == '%' && isHexDigitB a && isHexDigitB b then
      Char.ofNat (hexVal a * 16 + hexVal b) :: unquoteL rest2
    else c :: unquoteL (a :: b :: rest2)
  | c :: rest => c :: unquoteL rest
  | [] => []

/-- The `while` loop of `decode_search_value`: keep re-decoding while the
escape pattern is present and the string keeps changing.  The loop in the
source terminates because each decode pass strictly shrinks a string that
still contains an escape; the model makes that explicit with a fuel
argument always called with `fuel ≥ length`. -/
def decodeLoop : Nat → List Char → List Char
  | 0, decoded => decoded
  | fuel + 1, decoded =>
    if hasPercentEscape decoded then
      let temp := unquoteL decoded
      if temp = decoded then decoded else decodeLoop fuel temp
    else decoded

/-- `decode_search_value(value)` (src/index.py lines 40-64). -/
def decode_search_value (value : String) : String :=
  if hasPercentEscape value.toList then
    let decoded := unquoteL value.toList
    String.mk (decodeLoop decoded.length decoded)
  else value

/-! ## `EhUrlBuilder` (src/index.py lines 244-259)

`urllib.parse.urlencode` percent-encodes keys and values with
`quote_plus`: ASCII letters, digits and `_.-~` kept, space becomes `+`,
everything else becomes uppercase `%XX` per UTF-8 byte. -/

def hexDigitU (n : Nat) : Char :=
  if n < 10 then Char.ofNat (48 + n) else Char.ofNat (55 + n)

def utf8Bytes (n : Nat) : List Nat :=
  if n < 128 then [n]
  else if n < 2048 then [192 + n / 64, 128 + n % 64]
  else if n < 65536 then [224 + n / 4096, 128 + (n / 64) % 64, 128 + n % 64]
  else [240 + n / 262144, 128 + (n / 4096) % 64, 128 + (n / 64) % 64, 128 + n % 64]

def pctByte (b : Nat) : List Char :=
  ['%', hexDigitU (b / 16), hexDigitU (b % 16)]

def quotePlusChar (c : Char) : List Char :=
  if c.isAlpha || c.isDigit || c = '_' || c = '.' || c = '-' || c = '~' then [c]
  else if c = ' ' then ['+']
  else ((utf8Bytes c.toNat).map pctByte).flatten

def quote_plus (s : String) : String :=
  String.mk ((s.toList.map quotePlusChar).flatten)

def urlencode (params : List (String × String)) : String :=
  String.intercalate "&" (params.map (fun kv => quote_plus kv.1 ++ "=" ++ quote_plus kv.2))

/-- `EhUrlBuilder` carries only `use_exhentai`; it is modelled by passing
that flag. -/
def base_url (use_exhentai : Bool) : String :=
  if use_exhentai then "https://exhentai.org" else "https://e-hentai.org"

/-- `EhUrlBuilder.build_search_url` (line 248-255).  `if not next_id`
treats `None` and the empty string as absent; the keyword is stripped and
url-encoded; dict insertion order puts `f_search` before `next`. -/
def build_search_url (use_ex : Bool) (keyword : String) (next_id : Option String) : String :=
  let params : List (String × String) :=
    if !(optStrTruthy next_id) then
      (if keyword.isEmpty then [] else [("f_search", pyStrip keyword)])
    else
      (if keyword.isEmpty then [("next", next_id.getD "")]
       else [("f_search", pyStrip keyword), ("next", next_id.getD "")])
  base_url use_ex ++ "/?" ++ urlencode params

/-- `EhUrlBuilder.build_gallery_url` (line 257). -/
def build_gallery_url (use_ex : Bool) (gid : Int) (token : String) : String :=
  base_url use_ex ++ "/g/" ++ toString gid ++ "/" ++ token ++ "/"

/-! ## `get_request_context` (src/index.py lines 428-439) -/

/-- Substring test (Python `in` on strings). -/
def containsSub (needle : List Char) : List Char → Bool
  | [] => needle.isEmpty
  | c :: t => List.isPrefixOf needle (c :: t) || containsSub needle t

def pyInStr (needle haystack : String) : Bool :=
  containsSub needle.toList haystack.toList

def UA_STRING : String :=
  "Mozilla/5.0 (Windows NT 10.0; Win64; x64) AppleWebKit/537.36 (KHTML, like Gecko) Chrome/119.0.0.0 Safari/537.36"

def ACCEPT_STRING : String :=
  "text/html,application/xhtml+xml,application/xml;q=0.9,image/avif,image/webp,image/apng,*/*;q=0.8,application/signed-exchange;v=b3;q=0.7"

/-- `use_exhentai = bool(client_cookie and 'igneous=EX' in client_cookie)`. -/
def use_exhentai_of (client_cookie : Option String) : Bool :=
  match client_cookie with
  | some c => pyInStr "igneous=EX" c
  | none => false

abbrev Headers := List (String × String)

/-- The outgoing-request headers built by `get_request_context` (lines
437-438): fixed UA/Accept/Accept-Language, cookie-dependent Referer, and
the client's Cookie appended verbatim when present.  Routes pass
`tuple(headers.items())` (insertion order) into the cached functions. -/
def get_request_context_headers (client_cookie : Option String) : Headers :=
  let base : Headers :=
    [("User-Agent", UA_STRING), ("Accept", ACCEPT_STRING),
     ("Accept-Language", "en-US,en;q=0.9"),
     ("Referer", base_url (use_exhentai_of client_cookie))]
  match client_cookie with
  | some c => base ++ [("Cookie", c)]
  | none => base

/-! ## Parsed-page records (outputs of the external `EhParser`)

`EhParser` turns raw HTML into these records; its BeautifulSoup selector
logic is an external collaborator and enters the model as oracle
functions `String → ...`. -/

structure PaginationInfo where
  has_next : Bool
  next_id : Option String
deriving DecidableEq

structure GalleryItem where
  gid : Int
  token : String
  url : String
  title : String
deriving DecidableEq

/-- `EhParser.parse_gallery_list` output: always a two-key dict (truthy),
with possibly empty `galleries` and absent `next_id`. -/
structure GalleryListResult where
  galleries : List GalleryItem
  pagination : PaginationInfo
deriving DecidableEq

/-- `EhParser.parse_gallery_detail` output: a plain dict; empty means the
mandatory title element was missing. -/
abbrev DetailDict := List (String × String)

/-! ## Cached fetch paths (src/index.py lines 294-372)

`fetch_page_for_request` returns the body text or `None` on any
`requests.RequestException`; it is an oracle of type `Fetcher`. -/

abbrev Fetcher := String → Headers → Option String

/-- Body of `get_gallery_list_data` (lines 294-304): fetch, bail out with
`None` on a falsy body (`None` or empty text), else parse.  The parse can
never fail into `None` — `parse_gallery_list` always returns a dict. -/
def get_gallery_list_data_body (fetch : Fetcher) (parseList : String → GalleryListResult)
    (url : String) (headers : Headers) : Option GalleryListResult :=
  match fetch url headers with
  | none => none
  | some html => if html.isEmpty then none else some (parseList html)

/-- `get_gallery_list_data` decorated with `@cached(cache=list_cache)`:
key = `hashkey(url, headers)`. -/
def get_gallery_list_data (fetch : Fetcher) (parseList : String → GalleryListResult)
    (cache : List ((String × Headers) × Option GalleryListResult))
    (url : String) (headers : Headers) :
    CachedCall (String × Headers) (Option GalleryListResult) :=
  cachedCall cache (url, headers) (fun _ => get_gallery_list_data_body fetch parseList url headers)

/-- Body of `get_gallery_detail_data` (lines 306-321): build the gallery
URL, fetch, and return `None` on fetch failure or when the parsed dict is
empty (title element missing). -/
def get_gallery_detail_data_body (fetch : Fetcher) (parseDetail : String → DetailDict)
    (use_ex : Bool) (gid : Int) (token : String) (headers : Headers) : Option DetailDict :=
  match fetch (build_gallery_url use_ex gid token) headers with
  | none => none
  | some html =>
    if html.isEmpty then none
    else
      let d := parseDetail html
      if d.isEmpty then none else some d

/-! ## Image proxy cache (src/index.py lines 361-372) -/

abbrev CropTuple := Int × Int × Int × Int

structure ImageInfo where
  original_size : Nat × Nat
  compressed_size : Nat × Nat
  file_size : Nat
deriving DecidableEq

abbrev ImageBytes := List Nat

abbrev ProcessedImage := ImageBytes × ImageInfo

/-- `requests.get(url, headers=...)` + `raise_for_status` + `.content`:
`none` models a `requests.RequestException`. -/
abbrev Downloader := String → Headers → Option ImageBytes

/-- `ImageProcessor.process_and_compress` viewed as a whole (PIL decode /
re-encode are external); `none` models its internal `except` returning
`None`.  (Its dimension arithmetic is modelled separately below.) -/
abbrev Processor := ImageBytes → Int → Int → Option CropTuple → Option ProcessedImage

/-- Body of `get_processed_image_data` (lines 361-372): the raw download
happens FIRST and unconditionally inside this body — there is no separate
URL-keyed raw-bytes cache anywhere in the source. -/
def get_processed_image_data_body (download : Downloader) (processImg : Processor)
    (url : String) (headers : Headers) (max_width quality : Int)
    (crop_params : Option CropTuple) : Option ProcessedImage :=
  match download url headers with
  | none => none
  | some bytes => processImg bytes max_width quality crop_params

/-- Key of the `@cached(cache=image_proxy_cache)` decorator:
`hashkey(url, headers, max_width, quality, crop_params)` — all five
positional arguments, the headers tuple included. -/
abbrev ProxyKey := String × Headers × Int × Int × Option CropTuple

def get_processed_image_data (download : Downloader) (processImg : Processor)
    (cache : List (ProxyKey × Option ProcessedImage)) (url : String) (headers : Headers)
    (max_width quality : Int) (crop_params : Option CropTuple) :
    CachedCall ProxyKey (Option ProcessedImage) :=
  cachedCall cache (url, headers, max_width, quality, crop_params)
    (fun _ => get_processed_image_data_body download processImg url headers max_width quality crop_params)

/-- Origin download attempts performed by one `get_processed_image_data`
call: the body starts with `requests.get`, so a call downloads exactly
when the cached wrapper invoked the body. -/
def downloadsOf {K V : Type} (r : CachedCall K V) : Nat :=
  if r.computed then 1 else 0

/-- Concrete oracles used by closed counterexamples. -/
def failFetch : Fetcher := fun _ _ => none

def emptyParse : String → GalleryListResult :=
  fun _ => ⟨[], ⟨false, none⟩⟩

def okDownload : Downloader := fun _ _ => some [1]

def okProcess : Processor := fun _ _ _ _ => some ([2], ⟨(1, 1), (1, 1), 1⟩)

/-! ## `ImageProcessor.process_and_compress` dimension pipeline
(src/index.py lines 264-289)

PIL decode/encode is external; what the source itself computes — the crop
box, the resize condition and arithmetic, and the mode normalization — is
modelled on an image record.  The source computes
`ratio = max_width / original_width; new_height = int(original_height *
ratio)` in IEEE-754 binary64 floating point, which is NOT the exact
`⌊h·maxW/w⌋` (e.g. `int(90 * (7 / 10)) = 62`, not 63).  The float
arithmetic is modelled exactly below: a positive finite double is a pair
`(m, e)` of value `m · 2^e` with a 53-bit significand, `/` and `*` round
the exact rational result to nearest-even, and `int()` truncates toward
zero (= floor on these non-negative values).  The model covers the normal
finite range, which contains every realizable image dimension; Python's
int→float conversion inside the product is exact for `h < 2^53`. -/

/-- `⌊log₂ n⌋` (0 for `n = 0`), via a fuel-counted halving loop so that
the kernel can evaluate it; `fuel = n` always suffices. -/
def log2fuel : Nat → Nat → Nat
  | 0, _ => 0
  | fuel + 1, n => if 2 ≤ n then log2fuel fuel (n / 2) + 1 else 0

def nlog2 (n : Nat) : Nat := log2fuel n n

/-- Round the positive rational `a / b` scaled by `2^k` to an integer
significand, round-to-nearest with ties to even; the result represents
the double `q2 · 2^(-k)`. -/
def roundRatCore (a b : Nat) (k : Int) : Nat × Int :=
  let N := a * 2 ^ k.toNat
  let D := b * 2 ^ (-k).toNat
  let q := N / D
  let r := N % D
  let q2 :=
    if D < 2 * r then q + 1
    else if 2 * r < D then q
    else if q % 2 = 1 then q + 1 else q
  (q2, -k)

/-- Correctly rounded binary64 value of the positive rational `a / b`:
choose the scale `k` putting `⌊a·2^k/b⌋` into `[2^52, 2^53)`, then round.
The first candidate scale from `⌊log₂⌋` may undershoot by one. -/
def roundRat (a b : Nat) : Nat × Int :=
  let k0 : Int := 52 - (nlog2 a : Int) + (nlog2 b : Int)
  let q0 := (a * 2 ^ k0.toNat) / (b * 2 ^ (-k0).toNat)
  if q0 < 2 ^ 52 then roundRatCore a b (k0 + 1) else roundRatCore a b k0

/-- Python `a / b` on non-negative ints (true division to binary64). -/
def pyFloatDiv (a b : Nat) : Nat × Int :=
  if a = 0 || b = 0 then (0, 0) else roundRat a b

/-- Python `h * r` for an int `h` and a float `r`: one correctly rounded
multiplication of the exact product. -/
def pyFloatMul (h : Nat) (r : Nat × Int) : Nat × Int :=
  if h = 0 || r.1 = 0 then (0, 0)
  else
    let m := roundRat (h * r.1) 1
    (m.1, m.2 + r.2)

/-- Python `int(p)` on a non-negative float: truncation = floor. -/
def pyFloatTrunc (r : Nat × Int) : Nat :=
  if 0 ≤ r.2 then r.1 * 2 ^ r.2.toNat else r.1 / 2 ^ (-r.2).toNat

/-- `int(original_height * (max_width / original_width))` exactly as the
binary64 hardware computes it. -/
def float_resize_height (h maxW w : Nat) : Nat :=
  pyFloatTrunc (pyFloatMul h (pyFloatDiv maxW w))

inductive PILMode
  | RGB
  | RGBA
  | P
  | L
  | CMYK
deriving DecidableEq

structure PILImage where
  mode : PILMode
  width : Nat
  height : Nat
deriving DecidableEq

/-- `img.crop((x, y, x + w, y + h))`: the result has size `(w, h)`
(out-of-bounds boxes are padded by PIL, size is still `w × h`). -/
def crop_step (img : PILImage) (crop : Option (Nat × Nat × Nat × Nat)) : PILImage :=
  match crop with
  | some (_, _, w, h) => { img with width := w, height := h }
  | none => img

/-- `if original_width > max_width: ratio = max_width / original_width;
img = img.resize((max_width, int(original_height * ratio)), LANCZOS)`,
with the height computed in binary64 floats as in the source. -/
def resize_step (img : PILImage) (max_width : Nat) : PILImage :=
  if max_width < img.width then
    { img with width := max_width,
               height := float_resize_height img.height max_width img.width }
  else img

/-- RGBA/P are pasted onto a white RGB background of the same size; any
other non-RGB mode is converted.  The mode always ends up RGB and the
dimensions never change. -/
def mode_step (img : PILImage) : PILImage :=
  { img with mode := PILMode.RGB }

structure ProcessOutDims where
  original_size : Nat × Nat
  compressed_size : Nat × Nat
deriving DecidableEq

/-- The dimension content of `process_and_compress`'s `info` dict:
`original_size` is read AFTER the crop, `compressed_size` after resize
and mode normalization. -/
def process_and_compress_dims (img : PILImage) (max_width : Nat)
    (crop : Option (Nat × Nat × Nat × Nat)) : ProcessOutDims :=
  let cropped := crop_step img crop
  let resized := resize_step cropped max_width
  let final := mode_step resized
  { original_size := (cropped.width, cropped.height),
    compressed_size := (final.width, final.height) }

/-! ## `get_gallery_images_data` concurrent resolution
(src/index.py lines 323-358)

The body parses the preview page into an ordered `preview_list`, submits
one task per item to a thread pool, and as each future completes writes
`final_images[index] = {...}` into a slot list pre-sized to
`len(preview_list)`; finally `None` slots are dropped.  The
scheduler-chosen completion order enters the model as an explicit `order`
list (a permutation of `preview_list`); a task's outcome is a
deterministic function of its item (`resolve`).  `List.set` past the end
is a no-op, exactly matching the `IndexError` being swallowed by the
`except` around the slot write. -/

def THUMBNAIL_PROXY_WIDTH : Nat := 150
def THUMBNAIL_PROXY_QUALITY : Nat := 40
def DEFAULT_PROXY_WIDTH : Nat := 400
def DEFAULT_PROXY_QUALITY : Nat := 50
def MAX_CONCURRENT_REQUESTS : Nat := 10

/-- One record of `EhParser.parse_preview_images` output: `index` is the
enumeration position among the preview anchors; offsets are stored with
`abs(...)`, so `Nat`. -/
structure PreviewItem where
  index : Nat
  page_url : String
  thumbnail_url : String
  crop_x : Nat
  crop_y : Nat
  crop_w : Nat
  crop_h : Nat
deriving DecidableEq

structure ResolvedImage where
  index : Nat
  thumbnail_jpg : String
  image_jpg : String
deriving DecidableEq

def crop_info_str (it : PreviewItem) : String :=
  "&crop_x=" ++ toString it.crop_x ++ "&crop_y=" ++ toString it.crop_y
    ++ "&crop_w=" ++ toString it.crop_w ++ "&crop_h=" ++ toString it.crop_h

/-- The dict written into `final_images[index]` (lines 354-356). -/
def buildResolvedImage (it : PreviewItem) (image_url : String) : ResolvedImage :=
  { index := it.index,
    thumbnail_jpg := "/image/proxy?url=" ++ it.thumbnail_url ++ crop_info_str it
      ++ "&w=" ++ toString THUMBNAIL_PROXY_WIDTH ++ "&q=" ++ toString THUMBNAIL_PROXY_QUALITY,
    image_jpg := "/image/proxy?url=" ++ image_url }

/-- `fetch_and_parse_image_url` (lines 338-345): fetch the descriptor's
page, extract the final image URL; any failure yields `(index, None)`. -/
def fetch_and_parse_image_url (fetch : Fetcher) (parseImagePage : String → Option String)
    (headers : Headers) (item : PreviewItem) : Nat × Option String :=
  match fetch item.page_url headers with
  | none => (item.index, none)
  | some html =>
    if html.isEmpty then (item.index, none)
    else
      match parseImagePage html with
      | none => (item.index, none)
      | some u => if u.isEmpty then (item.index, none) else (item.index, some u)

def imageResolver (fetch : Fetcher) (parseImagePage : String → Option String)
    (headers : Headers) : PreviewItem → Option String :=
  fun item => (fetch_and_parse_image_url fetch parseImagePage headers item).2

/-- The `as_completed` loop (lines 349-357): for each completed task, in
completion order, write the built record into the slot at the item's
original index (out-of-range writes raise and are swallowed; failed
resolutions write nothing). -/
def assembleSlots (resolve : PreviewItem → Option String) :
    List PreviewItem → List (Option ResolvedImage) → List (Option ResolvedImage)
  | [], slots => slots
  | item :: rest, slots =>
    match resolve item with
    | some image_url =>
      assembleSlots resolve rest (slots.set item.index (some (buildResolvedImage item image_url)))
    | none => assembleSlots resolve rest slots

/-- `final_images = [None] * len(preview_list)`, the completion loop, and
the final `[img for img in final_images if img is not None]`. -/
def resolveImages (previews : List PreviewItem) (resolve : PreviewItem → Option String)
    (order : List PreviewItem) : List ResolvedImage :=
  (assembleSlots resolve order (List.replicate previews.length none)).filterMap id

/-- The reference in-order assembly: one entry per succeeding descriptor,
in list order. -/
def inOrderAssembly (previews : List PreviewItem) (resolve : PreviewItem → Option String) :
    List ResolvedImage :=
  previews.filterMap (fun it => (resolve it).map (buildResolvedImage it))

/-- Body of `get_gallery_images_data` (lines 323-358): `None` on fetch
failure, `[]` when the preview page parses to no descriptors, otherwise
the assembled list. -/
def get_gallery_images_data_body (fetch : Fetcher)
    (parsePreviews : String → List PreviewItem) (parseImagePage : String → Option String)
    (use_ex : Bool) (gid : Int) (token : String) (page : Nat) (headers : Headers)
    (order : List PreviewItem) : Option (List ResolvedImage) :=
  let url := build_gallery_url use_ex gid token ++ "?p=" ++ toString page
  match fetch url headers with
  | none => none
  | some html =>
    if html.isEmpty then none
    else
      let preview_list := parsePreviews html
      if preview_list.isEmpty then some []
      else some (resolveImages preview_list (imageResolver fetch parseImagePage headers) order)

/-! ## `/search` cursor-chain resolution (src/index.py lines 643-678)

`get_gallery_list_data` is `@cached` by URL (headers fixed within one
request), so inside one resolution it acts as a deterministic function of
the URL; it enters the model as the oracle `fetchList`.  The pagination
cache maps string keys `search_<keyword>_<p>` to the cursor needed to
request page `p + 1`. -/

inductive SearchErr
  | serverError (p : Nat)
  | pageUnavailable (p : Nat)
deriving DecidableEq

/-- HTTP status of the two error returns inside the replay loop:
`'无法获取第 p 页数据'` is 500, `'第 p 页后没有更多数据'` is 404. -/
def searchErrStatus : SearchErr → Nat
  | .serverError _ => 500
  | .pageUnavailable _ => 404

abbrev PCache := List (String × String)

/-- `f"search_{keyword}_{p}"`. -/
def pageKey (keyword : String) (p : Nat) : String :=
  "search_" ++ keyword ++ "_" ++ toString p

/-- `for p in range(1, page)` (lines 661-672): fetch page `p` using the
predecessor cursor from the pagination cache, store its next-cursor, 404
as soon as a page has no (truthy) next-cursor, 500 on fetch failure.
First argument is the current `p`, second the remaining iteration
count. -/
def replayLoop (fetchList : String → Option GalleryListResult) (use_ex : Bool)
    (keyword : String) : Nat → Nat → PCache → Except SearchErr PCache
  | _, 0, c => .ok c
  | p, r + 1, c =>
    let prev := if 1 < p then dictGet c (pageKey keyword (p - 1)) else none
    match fetchList (build_search_url use_ex keyword prev) with
    | none => .error (.serverError p)
    | some res =>
      match res.pagination.next_id with
      | some nid =>
        if nid.isEmpty then .error (.pageUnavailable p)
        else replayLoop fetchList use_ex keyword (p + 1) r ((pageKey keyword p, nid) :: c)
      | none => .error (.pageUnavailable p)

/-- Lines 657-674: resolution of the cursor used for the final
page-`page` request.  For `page > 1`, a truthy cached link for page
`page-1` short-circuits; otherwise the replay loop runs over pages
`1..page-1` and the needed cursor is re-read from the filled cache. -/
def resolve_search_cursor (fetchList : String → Option GalleryListResult) (use_ex : Bool)
    (keyword : String) (page : Nat) (c : PCache) :
    Except SearchErr (Option String × PCache) :=
  if 1 < page then
    let nid0 := dictGet c (pageKey keyword (page - 1))
    if optStrTruthy nid0 then .ok (nid0, c)
    else
      match replayLoop fetchList use_ex keyword 1 (page - 1) c with
      | .error e => .error e
      | .ok c2 => .ok (dictGet c2 (pageKey keyword (page - 1)), c2)
  else .ok (none, c)

/-- The cursor used to request page `i` of a chain described by
`pageRes`: none for page 1, else page `i-1`'s next-cursor. -/
def chainPrev (pageRes : Nat → GalleryListResult) (i : Nat) : Option String :=
  if i ≤ 1 then none else (pageRes (i - 1)).pagination.next_id

/-! ## `/image/proxy` parameter handling (src/index.py lines 772-793) -/

inductive ProxyStep
  | missingUrl
  | invalidCrop
  | internalError
  | request (url : String) (max_width quality : Int) (crop : Option CropTuple)
deriving DecidableEq

/-- `request.args.get('w', request.args.get('width', '400'))`. -/
def proxy_wstr (args : List (String × String)) : String :=
  (dictGet args "w").getD ((dictGet args "width").getD "400")

/-- `request.args.get('q', request.args.get('quality', '50'))`. -/
def proxy_qstr (args : List (String × String)) : String :=
  (dictGet args "q").getD ((dictGet args "quality").getD "50")

/-- `quality = max(1, min(100, quality))`. -/
def clampQuality (q : Int) : Int := max 1 (min 100 q)

/-- The `image_proxy` route up to the cached-processing call:
missing/empty `url` is a 400; an unparsable `w`/`q` raises `ValueError`
into the route's outer `except` (a 500); the crop branch runs only when
`crop_x` is PRESENT, and inside it a missing or unparsable value among
the four crop args is the dedicated 400. -/
def image_proxy_parse (args : List (String × String)) : ProxyStep :=
  match dictGet args "url" with
  | none => .missingUrl
  | some url =>
    if url.isEmpty then .missingUrl
    else
      match pyInt? (proxy_wstr args), pyInt? (proxy_qstr args) with
      | some w, some q =>
        let qc := clampQuality q
        (match dictGet args "crop_x" with
         | none => .request url w qc none
         | some sx =>
           match pyInt? sx, (dictGet args "crop_y").bind pyInt?,
               (dictGet args "crop_w").bind pyInt?, (dictGet args "crop_h").bind pyInt? with
           | some x, some y, some w2, some h2 => .request url w qc (some (x, y, w2, h2))
           | _, _, _, _ => .invalidCrop)
      | _, _ => .internalError

/-! ## `parse_id` and the `/comic/<id>`, `/photo/<id>/<chapter>` guards
(src/index.py lines 401-410, 706-710, 739-750)

Both routes run `parse_id` and return the 400 `'无效的 ID 格式'` before
`get_request_context` and before any origin fetch; the `fetch` outcome
below therefore means "the route proceeds to fetch with these values". -/

/-- Python `str.split(sep)` for a one-character separator (empty parts
preserved). -/
def pySplitChar (sep : Char) : List Char → List (List Char)
  | [] => [[]]
  | c :: rest =>
    match pySplitChar sep rest with
    | [] => [[]]
    | h :: t => if c = sep then [] :: h :: t else (c :: h) :: t

def pySplit (sep : Char) (s : String) : List String :=
  (pySplitChar sep s.toList).map String.mk

def parse_id (id_str : String) : Option Int × Option String :=
  if id_str.toList.any (fun c => c = '_') then
    match pySplit '_' id_str with
    | [p0, p1] =>
      (match pyInt? p0 with
       | some n => (some n, some p1)
       | none => (none, none))
    | _ => (none, none)
  else (none, none)

inductive RouteAction
  | badRequest
  | fetch (gid : Int) (token : String)
deriving DecidableEq

inductive ImagesRouteAction
  | badRequest
  | fetch (gid : Int) (token : String) (page : Int)
deriving DecidableEq

/-- `if not gid or not token` (gid falsy: `None` or `0`; token falsy:
`None` or `""`). -/
def idRejected (id : String) : Bool :=
  match parse_id id with
  | (some g, some t) => g == 0 || t.isEmpty
  | _ => true

def gallery_detail_route (id : String) : RouteAction :=
  match parse_id id with
  | (some g, some t) => if g == 0 || t.isEmpty then .badRequest else .fetch g t
  | _ => .badRequest

/-- `page = int(chapter) if chapter.isdigit() else 0`. -/
def gallery_images_route (id chapter : String) : ImagesRouteAction :=
  match parse_id id with
  | (some g, some t) =>
    if g == 0 || t.isEmpty then .badRequest
    else .fetch g t (if pyIsdigit chapter then (pyInt? chapter).getD 0 else 0)
  | _ => .badRequest

/-! Concrete inputs used by closed witnesses below. -/

def previewAt (i : Nat) : PreviewItem :=
  ⟨i, "https://e-hentai.org/s/p" ++ toString i, "https://t/" ++ toString i ++ ".jpg",
    10, 20, 100, 50⟩

def prevFive : List PreviewItem :=
  [previewAt 0, previewAt 1, previewAt 2, previewAt 3, previewAt 4]

/-- A completion order in which the tasks finish 3, 0, 4, 2, 1. -/
def ordFive : List PreviewItem :=
  [previewAt 3, previewAt 0, previewAt 4, previewAt 2, previewAt 1]

/-- Resolution oracle where the descriptor at index 2 fails. -/
def resolveFailTwo : PreviewItem → Option String :=
  fun it => if it.index == 2 then none else some ("https://img/" ++ toString it.index ++ ".jpg")

/-- A one-page catalog for keyword `"k"`: the page-1 listing parses with
no next-cursor; any other URL fails to fetch. -/
def gapPageRes : Nat → GalleryListResult := fun _ => ⟨[], ⟨false, none⟩⟩

def gapFetchList : String → Option GalleryListResult :=
  fun u => if u = build_search_url false "k" none then some ⟨[], ⟨false, none⟩⟩ else none

theorem unquoteL_length_le (l : List Char) : (unquoteL l).length ≤ l.length := by
  induction l using unquoteL.induct with
  | case1 c a b rest2 hc ih =>
    simp only [unquoteL, if_pos hc, List.length_cons]
    omega
  | case2 c a b rest2 hc ih =>
    simp only [unquoteL, if_neg hc, List.length_cons]
    simp only [List.length_cons] at ih
    omega
  | case3 c rest hshort ih =>
    cases rest with
    | nil => simp [unquoteL]
    | cons a rest' =>
      cases rest' with
      | nil =>
        simp only [unquoteL, List.length_cons]
        simp only [List.length_cons] at ih
        omega
      | cons b rest2 => exact (hshort a b rest2 rfl).elim
  | case4 => simp [unquoteL]

theorem unquoteL_length_lt (l : List Char) (h : hasPercentEscape l = true) :
    (unquoteL l).length < l.length := by
  induction l using unquoteL.induct with
  | case1 c a b rest2 hc ih =>
    simp only [unquoteL, if_pos hc, List.length_cons]
    have := unquoteL_length_le rest2
    omega
  | case2 c a b rest2 hc ih =>
    simp only [unquoteL, if_neg hc, List.length_cons]
    have hrest : hasPercentEscape (a :: b :: rest2) = true := by
      simp only [hasPercentEscape, isEscapeAt] at h
      rcases Bool.or_eq_true_iff.mp h with h1 | h2
      · exact absurd h1 hc
      · exact h2
    have := ih hrest
    simp only [List.length_cons] at this ⊢
    omega
  | case3 c rest hshort ih =>
    exfalso
    cases rest with
    | nil => simp [hasPercentEscape, isEscapeAt] at h
    | cons a rest' =>
      cases rest' with
      | nil => simp [hasPercentEscape, isEscapeAt] at h
      | cons b rest2 => exact hshort a b rest2 rfl
  | case4 => simp [hasPercentEscape] at h

theorem decodeLoop_no_escape (fuel : Nat) (l : List Char)
    (hf : l.length ≤ fuel) : hasPercentEscape (decodeLoop fuel l) = false := by
  induction fuel generalizing l with
  | zero =>
    have : l = [] := List.length_eq_zero.mp (Nat.le_zero.mp hf)
    subst this
    simp [decodeLoop, hasPercentEscape]
  | succ fuel ih =>
    by_cases h : hasPercentEscape l = true
    · have hlt := unquoteL_length_lt l h
      have hne : unquoteL l ≠ l := by
        intro heq
        rw [heq] at hlt
        exact Nat.lt_irrefl _ hlt
      simp only [decodeLoop, h, if_true, hne, if_false]
      exact ih (unquoteL l) (by omega)
    · simp only [Bool.not_eq_true] at h
      simp [decodeLoop, h]

/-- C9. `decode_search_value` is idempotent: a second application returns
the first application's output unchanged, because that output never
contains a percent sign followed by two hexadecimal digits. -/
theorem decode_search_value_idempotent (v : String) :
    hasPercentEscape (decode_search_value v).toList = false ∧
      decode_search_value (decode_search_value v) = decode_search_value v := by
  by_cases h : hasPercentEscape v.toList = true
  · have hres : hasPercentEscape
        (decodeLoop (unquoteL v.toList).length (unquoteL v.toList)) = false :=
      decodeLoop_no_escape _ _ (Nat.le_refl _)
    have hout : decode_search_value v
        = String.mk (decodeLoop (unquoteL v.toList).length (unquoteL v.toList)) := by
      unfold decode_search_value
      rw [if_pos h]
    have htl : (decode_search_value v).toList
        = decodeLoop (unquoteL v.toList).length (unquoteL v.toList) := by
      rw [hout]
      rfl
    constructor
    · rw [htl]; exact hres
    · conv_lhs => rw [decode_search_value]
      rw [htl, hres]
      simp
  · simp only [Bool.not_eq_true] at h
    have hout : decode_search_value v = v := by
      unfold decode_search_value
      rw [if_neg (by rw [h]; exact Bool.false_ne_true)]
    refine ⟨by rw [hout]; exact h, ?_⟩
    rw [hout, hout]

/-! ## C1: failure caching -/

/-- C1 counterexample.  A listing fetch that fails is NOT retried on the
next call: the `@cached` wrapper stores the body's `None` return value,
and the very next call with the same key is served that cached `None`
without invoking the fetch (`computed = false`).  The same happens on the
image-proxy path with a failing download. -/
theorem list_failure_cached_cex :
    (get_gallery_list_data failFetch emptyParse [] "https://e-hentai.org/?f_search=k" []).value = none
    ∧ (get_gallery_list_data failFetch emptyParse [] "https://e-hentai.org/?f_search=k" []).cache
        = [(("https://e-hentai.org/?f_search=k", []), none)]
    ∧ (get_gallery_list_data failFetch emptyParse
        (get_gallery_list_data failFetch emptyParse [] "https://e-hentai.org/?f_search=k" []).cache
        "https://e-hentai.org/?f_search=k" []).computed = false
    ∧ (get_processed_image_data (fun _ _ => none) okProcess [] "https://x/i.jpg" [] 400 50 none).cache
        = [(("https://x/i.jpg", [], 400, 50, none), none)]
    ∧ (get_processed_image_data (fun _ _ => none) okProcess
        (get_processed_image_data (fun _ _ => none) okProcess [] "https://x/i.jpg" [] 400 50 none).cache
        "https://x/i.jpg" [] 400 50 none).computed = false :=
  ⟨rfl, rfl, rfl, rfl, rfl⟩

/-- C1 amended.  A call whose compute fails does store its `None` result:
for every cache state with a cold key and every failing compute, the call
returns `None`, the cache afterwards maps the key to `None`, and any
subsequent call with the same key is served the cached `None` without
invoking its compute.  (All four fetch paths are `cachedCall` instances:
`get_gallery_list_data`, `get_gallery_detail_data`,
`get_gallery_images_data`, `get_processed_image_data`.) -/
theorem cached_failure_is_stored {K V : Type} [DecidableEq K]
    (cache : List (K × Option V)) (k : K) (compute : Unit → Option V)
    (hmiss : dictGet cache k = none) (hfail : compute () = none) :
    (cachedCall cache k compute).value = none
    ∧ dictGet (cachedCall cache k compute).cache k = some none
    ∧ ∀ compute2 : Unit → Option V,
        (cachedCall (cachedCall cache k compute).cache k compute2).computed = false
        ∧ (cachedCall (cachedCall cache k compute).cache k compute2).value = none := by
  have h1 : cachedCall cache k compute = ⟨none, (k, none) :: cache, true⟩ := by
    unfold cachedCall
    rw [hmiss, hfail]
  have hget : dictGet ((k, (none : Option V)) :: cache) k = some none := by
    simp [dictGet]
  refine ⟨by rw [h1], by rw [h1]; exact hget, ?_⟩
  intro compute2
  rw [h1]
  constructor
  · unfold cachedCall
    rw [hget]
  · unfold cachedCall
    rw [hget]

/-- Witness for `cached_failure_is_stored` on the listing path at a
concrete input. -/
theorem cached_failure_is_stored_witness :
    dictGet ([] : List ((String × Headers) × Option GalleryListResult))
      ("https://e-hentai.org/", ([] : Headers)) = none
    ∧ ((cachedCall ([] : List ((String × Headers) × Option GalleryListResult))
          ("https://e-hentai.org/", ([] : Headers)) (fun _ => none)).value = none
        ∧ dictGet (cachedCall ([] : List ((String × Headers) × Option GalleryListResult))
            ("https://e-hentai.org/", ([] : Headers)) (fun _ => none)).cache
            ("https://e-hentai.org/", ([] : Headers)) = some none
        ∧ ∀ compute2 : Unit → Option GalleryListResult,
            (cachedCall (cachedCall ([] : List ((String × Headers) × Option GalleryListResult))
                ("https://e-hentai.org/", ([] : Headers)) (fun _ => none)).cache
                ("https://e-hentai.org/", ([] : Headers)) compute2).computed = false
            ∧ (cachedCall (cachedCall ([] : List ((String × Headers) × Option GalleryListResult))
                ("https://e-hentai.org/", ([] : Headers)) (fun _ => none)).cache
                ("https://e-hentai.org/", ([] : Headers)) compute2).value = none) :=
  ⟨rfl, cached_failure_is_stored [] ("https://e-hentai.org/", []) (fun _ => none) rfl rfl⟩

/-! ## C2: no URL-only raw-bytes cache -/

/-- C2 counterexample.  Two proxy requests for the SAME source URL with
different `(maxWidth, quality)` within the TTL window download the source
twice — the raw fetch sits inside the function cached by the full
parameter tuple, and no URL-only raw cache exists. -/
theorem proxy_raw_refetch_cex :
    downloadsOf (get_processed_image_data okDownload okProcess [] "https://x/i.jpg" [] 400 50 none)
    + downloadsOf (get_processed_image_data okDownload okProcess
        (get_processed_image_data okDownload okProcess [] "https://x/i.jpg" [] 400 50 none).cache
        "https://x/i.jpg" [] 150 40 none) = 2 :=
  rfl

/-- C2 amended.  The raw download is keyed by the FULL transform tuple,
not by URL alone: for any two proxy calls on the same URL and headers
whose `(maxWidth, quality, cropRect)` differ and whose keys are both
cold, each call invokes the body and therefore performs its own origin
download. -/
theorem proxy_distinct_params_redownload (download : Downloader) (processImg : Processor)
    (cache : List (ProxyKey × Option ProcessedImage)) (url : String) (headers : Headers)
    (w1 q1 : Int) (cr1 : Option CropTuple) (w2 q2 : Int) (cr2 : Option CropTuple)
    (h1 : dictGet cache (url, headers, w1, q1, cr1) = none)
    (h2 : dictGet cache (url, headers, w2, q2, cr2) = none)
    (hne : (w1, q1, cr1) ≠ (w2, q2, cr2)) :
    downloadsOf (get_processed_image_data download processImg cache url headers w1 q1 cr1) = 1
    ∧ downloadsOf (get_processed_image_data download processImg
        (get_processed_image_data download processImg cache url headers w1 q1 cr1).cache
        url headers w2 q2 cr2) = 1 := by
  have hkne : (url, headers, w1, q1, cr1) ≠ ((url, headers, w2, q2, cr2) : ProxyKey) := by
    intro h
    apply hne
    have h' := congrArg (fun p : ProxyKey => p.2.2) h
    exact h'
  have hc1 : get_processed_image_data download processImg cache url headers w1 q1 cr1
      = ⟨get_processed_image_data_body download processImg url headers w1 q1 cr1,
          ((url, headers, w1, q1, cr1),
            get_processed_image_data_body download processImg url headers w1 q1 cr1) :: cache,
          true⟩ := by
    unfold get_processed_image_data cachedCall
    rw [h1]
  constructor
  · rw [hc1]; rfl
  · rw [hc1]
    unfold get_processed_image_data cachedCall
    simp only [dictGet, if_neg hkne, h2]
    rfl

/-- Witness for `proxy_distinct_params_redownload` at a concrete input. -/
theorem proxy_distinct_params_redownload_witness :
    dictGet ([] : List (ProxyKey × Option ProcessedImage)) ("https://x/i.jpg", [], 400, 50, none) = none
    ∧ dictGet ([] : List (ProxyKey × Option ProcessedImage)) ("https://x/i.jpg", [], 150, 40, none) = none
    ∧ ((400, 50, (none : Option CropTuple)) ≠ ((150 : Int), (40 : Int), (none : Option CropTuple)))
    ∧ (downloadsOf (get_processed_image_data okDownload okProcess [] "https://x/i.jpg" [] 400 50 none) = 1
        ∧ downloadsOf (get_processed_image_data okDownload okProcess
            (get_processed_image_data okDownload okProcess [] "https://x/i.jpg" [] 400 50 none).cache
            "https://x/i.jpg" [] 150 40 none) = 1) :=
  ⟨rfl, rfl, by decide,
    proxy_distinct_params_redownload okDownload okProcess [] "https://x/i.jpg" []
      400 50 none 150 40 none rfl rfl (by decide)⟩

/-! ## C3: the proxy cache key includes the outgoing headers -/

/-- C3 counterexample.  Two proxy requests agreeing on (URL, width,
quality, crop) but differing in the client's Cookie header are NOT served
from the same cache entry: the second call invokes the body again,
because `hashkey` includes the headers tuple, which embeds the Cookie. -/
theorem proxy_cookie_key_cex :
    (get_processed_image_data okDownload okProcess
      (get_processed_image_data okDownload okProcess []
        "https://x/i.jpg" (get_request_context_headers none) 400 50 none).cache
      "https://x/i.jpg" (get_request_context_headers (some "ipb_member_id=1")) 400 50 none).computed = true
    ∧ get_request_context_headers none ≠ get_request_context_headers (some "ipb_member_id=1") := by
  constructor
  · rfl
  · decide

/-- C3 amended.  The transformed-image cache key is
`(url, headers, maxWidth, quality, cropRect)`: when ALL five components —
the outgoing headers tuple included — agree, the second call within the
TTL window is served the first call's value without invoking the body. -/
theorem proxy_full_key_hit (download : Downloader) (processImg : Processor)
    (cache : List (ProxyKey × Option ProcessedImage)) (url : String) (headers : Headers)
    (w q : Int) (crop : Option CropTuple) :
    (get_processed_image_data download processImg
        (get_processed_image_data download processImg cache url headers w q crop).cache
        url headers w q crop).computed = false
    ∧ (get_processed_image_data download processImg
        (get_processed_image_data download processImg cache url headers w q crop).cache
        url headers w q crop).value
      = (get_processed_image_data download processImg cache url headers w q crop).value := by
  cases hl : dictGet cache ((url, headers, w, q, crop) : ProxyKey) with
  | some v =>
    have hc1 : get_processed_image_data download processImg cache url headers w q crop
        = ⟨v, cache, false⟩ := by
      unfold get_processed_image_data cachedCall
      rw [hl]
    rw [hc1]
    unfold get_processed_image_data cachedCall
    rw [hl]
    exact ⟨rfl, rfl⟩
  | none =>
    have hc1 : get_processed_image_data download processImg cache url headers w q crop
        = ⟨get_processed_image_data_body download processImg url headers w q crop,
            ((url, headers, w, q, crop),
              get_processed_image_data_body download processImg url headers w q crop) :: cache,
            true⟩ := by
      unfold get_processed_image_data cachedCall
      rw [hl]
    rw [hc1]
    unfold get_processed_image_data cachedCall
    simp [dictGet]

/-! ## C8: crop-then-downscale dimensions -/

/-- C8 counterexample.  The downscaled height is not
`⌊height·max_width/width⌋`: for a decodable 10×90 source (width 10
exceeding `max_width = 7`) the program computes
`int(90 * (7 / 10)) = 62` in binary64 floats — `7 / 10` rounds below
`0.7`, so the product lands just under 63 — while the claimed floor
formula gives `⌊90·7/10⌋ = 63`. -/
theorem resize_float_rounding_cex :
    (process_and_compress_dims ⟨PILMode.RGB, 10, 90⟩ 7 none).compressed_size = (7, 62)
    ∧ 90 * 7 / 10 = 63
    ∧ (62 : Nat) ≠ 63 := by
  refine ⟨by decide, by decide, by decide⟩

/-- C8 amended.  For every decodable source image: if the post-crop width
exceeds `max_width` the output dimensions are
`(max_width, int(height * (max_width / width)))` with the height
evaluated in binary64 floating point — which can differ by one from
`⌊height·max_width/width⌋` — and otherwise the post-crop dimensions are
kept unchanged (never upscaled). -/
theorem process_resize_dims (img : PILImage) (max_width : Nat)
    (crop : Option (Nat × Nat × Nat × Nat)) :
    (max_width < (crop_step img crop).width →
      (process_and_compress_dims img max_width crop).compressed_size
        = (max_width,
            float_resize_height (crop_step img crop).height max_width (crop_step img crop).width))
    ∧ ((crop_step img crop).width ≤ max_width →
      (process_and_compress_dims img max_width crop).compressed_size
        = ((crop_step img crop).width, (crop_step img crop).height)) := by
  constructor
  · intro h
    simp [process_and_compress_dims, resize_step, mode_step, h]
  · intro h
    simp [process_and_compress_dims, resize_step, mode_step, Nat.not_lt.mpr h]

/-- Witness for `process_resize_dims`: a 1000×800 source with
`max_width = 400` yields 400×320 (here the float and exact results
agree); with `max_width = 1200` it stays 1000×800. -/
theorem process_resize_dims_witness :
    (400 < (crop_step ⟨PILMode.RGB, 1000, 800⟩ none).width
      ∧ (process_and_compress_dims ⟨PILMode.RGB, 1000, 800⟩ 400 none).compressed_size = (400, 320))
    ∧ ((crop_step ⟨PILMode.RGB, 1000, 800⟩ none).width ≤ 1200
      ∧ (process_and_compress_dims ⟨PILMode.RGB, 1000, 800⟩ 1200 none).compressed_size = (1000, 800)) := by
  refine ⟨⟨by decide, ?_⟩, ⟨by decide, ?_⟩⟩
  · have h := (process_resize_dims ⟨PILMode.RGB, 1000, 800⟩ 400 none).1 (by decide)
    rw [h]
    decide
  · exact (process_resize_dims ⟨PILMode.RGB, 1000, 800⟩ 1200 none).2 (by decide)

/-! ## C7: crop-parameter validation on `/image/proxy` -/

/-- C7 counterexample.  A request supplying `crop_y`, `crop_w`, `crop_h`
but NOT `crop_x` (some but not all four crop parameters) is served
crop-free with no 400: the crop branch is guarded solely by the presence
of `crop_x`. -/
theorem crop_missing_x_ignored_cex :
    image_proxy_parse
        [("url", "https://x/i.jpg"), ("crop_y", "1"), ("crop_w", "2"), ("crop_h", "3")]
      = ProxyStep.request "https://x/i.jpg" 400 50 none
    ∧ image_proxy_parse
        [("url", "https://x/i.jpg"), ("crop_y", "1"), ("crop_w", "2"), ("crop_h", "3")]
      ≠ ProxyStep.invalidCrop := by
  constructor
  · decide
  · decide

/-- C7 amended.  When `crop_x` IS supplied, a missing or non-integer
value among the four crop parameters is answered with the dedicated 400
(`invalidCrop`); when `crop_x` is absent, the remaining crop parameters
are ignored and the request is processed crop-free. -/
theorem image_proxy_crop_validation (args : List (String × String)) (url : String)
    (w q : Int)
    (hurl : dictGet args "url" = some url) (hne : url.isEmpty = false)
    (hw : pyInt? (proxy_wstr args) = some w) (hq : pyInt? (proxy_qstr args) = some q) :
    (dictGet args "crop_x" = none →
      image_proxy_parse args = ProxyStep.request url w (clampQuality q) none)
    ∧ (∀ sx, dictGet args "crop_x" = some sx →
        (pyInt? sx = none ∨ (dictGet args "crop_y").bind pyInt? = none
          ∨ (dictGet args "crop_w").bind pyInt? = none
          ∨ (dictGet args "crop_h").bind pyInt? = none) →
        image_proxy_parse args = ProxyStep.invalidCrop) := by
  have hbase : image_proxy_parse args
      = (match dictGet args "crop_x" with
         | none => ProxyStep.request url w (clampQuality q) none
         | some sx =>
           match pyInt? sx, (dictGet args "crop_y").bind pyInt?,
               (dictGet args "crop_w").bind pyInt?, (dictGet args "crop_h").bind pyInt? with
           | some x, some y, some w2, some h2 =>
             ProxyStep.request url w (clampQuality q) (some (x, y, w2, h2))
           | _, _, _, _ => ProxyStep.invalidCrop) := by
    unfold image_proxy_parse
    rw [hurl, hw, hq]
    simp [hne]
  constructor
  · intro h
    rw [hbase, h]
  · intro sx hsx hbad
    have hbase2 : image_proxy_parse args
        = (match pyInt? sx, (dictGet args "crop_y").bind pyInt?,
              (dictGet args "crop_w").bind pyInt?, (dictGet args "crop_h").bind pyInt? with
           | some x, some y, some w2, some h2 =>
             ProxyStep.request url w (clampQuality q) (some (x, y, w2, h2))
           | _, _, _, _ => ProxyStep.invalidCrop) := by
      rw [hbase, hsx]
    rw [hbase2]
    rcases hbad with hb | hb | hb | hb
    · rw [hb]
    · rw [hb]
      cases pyInt? sx <;> rfl
    · rw [hb]
      cases pyInt? sx <;> cases (dictGet args "crop_y").bind pyInt? <;> rfl
    · rw [hb]
      cases pyInt? sx <;> cases (dictGet args "crop_y").bind pyInt? <;>
        cases (dictGet args "crop_w").bind pyInt? <;> rfl

/-- Witness for `image_proxy_crop_validation`: `crop_x` present but not
an integer, at default `w`/`q`. -/
theorem image_proxy_crop_validation_witness :
    dictGet [("url", "u"), ("crop_x", "abc")] "url" = some "u"
    ∧ ("u").isEmpty = false
    ∧ pyInt? (proxy_wstr [("url", "u"), ("crop_x", "abc")]) = some 400
    ∧ pyInt? (proxy_qstr [("url", "u"), ("crop_x", "abc")]) = some 50
    ∧ image_proxy_parse [("url", "u"), ("crop_x", "abc")] = ProxyStep.invalidCrop := by
  refine ⟨by decide, by decide, by decide, by decide, ?_⟩
  exact (image_proxy_crop_validation [("url", "u"), ("crop_x", "abc")] "u" 400 50
      (by decide) (by decide) (by decide) (by decide)).2 "abc" (by decide) (Or.inl (by decide))

/-! ## C10: item-id validation on `/comic/<id>` and `/photo/<id>/<chapter>` -/

/-- C10 counterexample.  The ids `" 5_t"` and `"+5_t"` — whose first
parts are not plain decimal-digit strings — are NOT rejected: Python's
`int()` strips whitespace and accepts a sign, so both routes proceed to
the origin fetch with gid 5 instead of returning 400. -/
theorem parse_id_whitespace_sign_cex :
    gallery_detail_route " 5_t" = RouteAction.fetch 5 "t"
    ∧ gallery_images_route "+5_t" "0" = ImagesRouteAction.fetch 5 "t" 0
    ∧ (" 5").toList.all Char.isDigit = false
    ∧ ("+5").toList.all Char.isDigit = false := by
  refine ⟨by decide, by decide, by decide, by decide⟩

/-- C10 amended.  Both routes return the 400 `badRequest` — before any
origin fetch — exactly for the ids rejected by `parse_id`'s guard: no
single-underscore two-part split, or a first part Python's `int()` cannot
parse (optional whitespace and sign around a digit run), or an integer
part equal to 0, or an empty token part; every other id is fetched with
its parsed gid and token. -/
theorem gallery_routes_id_validation (id chapter : String) :
    (gallery_detail_route id = RouteAction.badRequest ↔ idRejected id = true)
    ∧ (gallery_images_route id chapter = ImagesRouteAction.badRequest ↔ idRejected id = true) := by
  unfold gallery_detail_route gallery_images_route idRejected
  rcases hp : parse_id id with ⟨g, t⟩
  cases g with
  | none =>
    cases t <;> simp
  | some gv =>
    cases t with
    | none => simp
    | some tv =>
      by_cases h : (gv == 0 || tv.isEmpty) = true
      · simp [h]
      · simp only [Bool.not_eq_true] at h
        simp [h]

/-! ## C5 / C6: order and partial-failure behaviour of the resolver -/

theorem assembleSlots_length (resolve : PreviewItem → Option String) (order : List PreviewItem) :
    ∀ slots, (assembleSlots resolve order slots).length = slots.length := by
  induction order with
  | nil => intro slots; rfl
  | cons item rest ih =>
    intro slots
    cases hres : resolve item with
    | none => simp only [assembleSlots, hres]; exact ih slots
    | some u =>
      simp only [assembleSlots, hres]
      rw [ih, List.length_set]

/-- Every filled slot holds a record whose `index` equals the slot
position: a slot `i` is only ever written by the task of the item with
`index = i`, and the written record carries that same index. -/
theorem assembleSlots_indexOK (resolve : PreviewItem → Option String) (order : List PreviewItem) :
    ∀ slots, (∀ (i : Nat) (r : ResolvedImage), slots[i]? = some (some r) → r.index = i) →
      ∀ (i : Nat) (r : ResolvedImage),
        (assembleSlots resolve order slots)[i]? = some (some r) → r.index = i := by
  induction order with
  | nil => intro slots h; exact h
  | cons item rest ih =>
    intro slots h
    cases hres : resolve item with
    | none =>
      simp only [assembleSlots, hres]
      exact ih slots h
    | some u =>
      simp only [assembleSlots, hres]
      apply ih
      intro i r hir
      by_cases hij : item.index = i
      · subst hij
        by_cases hlen : item.index < slots.length
        · rw [List.getElem?_set_self hlen] at hir
          cases hir
          rfl
        · rw [List.set_eq_of_length_le (by omega)] at hir
          exact h _ r hir
      · rw [List.getElem?_set_ne hij] at hir
        exact h i r hir

/-- Dropping the empty slots of an index-faithful slot list yields a list
strictly sorted by index. -/
theorem pairwise_index_of_slots :
    ∀ (slots : List (Option ResolvedImage)) (base : Nat),
      (∀ (i : Nat) (r : ResolvedImage), slots[i]? = some (some r) → r.index = base + i) →
      (slots.filterMap id).Pairwise (fun a b => a.index < b.index) := by
  intro slots
  induction slots with
  | nil => intro base _; simp
  | cons o rest ih =>
    intro base h
    have htail : ∀ (i : Nat) (r : ResolvedImage), rest[i]? = some (some r) → r.index = (base + 1) + i := by
      intro i r hir
      have := h (i + 1) r (by rw [List.getElem?_cons_succ]; exact hir)
      omega
    cases o with
    | none =>
      simp only [List.filterMap_cons]
      exact ih (base + 1) htail
    | some r0 =>
      simp only [List.filterMap_cons]
      refine List.Pairwise.cons ?_ (ih (base + 1) htail)
      intro b hb
      have hmem : (some b) ∈ rest := by
        rcases List.mem_filterMap.mp hb with ⟨x, hx, hxb⟩
        simp only [id] at hxb
        rw [hxb] at hx
        exact hx
      rcases List.mem_iff_getElem.mp hmem with ⟨n, hn, hnb⟩
      have hb' : rest[n]? = some (some b) := by
        rw [List.getElem?_eq_getElem hn, hnb]
      have h1 := htail n b hb'
      have h0 := h 0 r0 (by rw [List.getElem?_cons_zero])
      omega

/-- C5.  For every preview-descriptor list and every completion order of
the concurrent per-descriptor tasks (any permutation of the descriptor
list), the assembled output is sorted by strictly ascending original
descriptor index. -/
theorem resolved_images_sorted (previews : List PreviewItem)
    (resolve : PreviewItem → Option String) (order : List PreviewItem)
    (hperm : order.Perm previews) :
    (resolveImages previews resolve order).Pairwise (fun a b => a.index < b.index) := by
  unfold resolveImages
  apply pairwise_index_of_slots _ 0
  intro i r hir
  have h0 : ∀ (j : Nat) (s : ResolvedImage),
      (List.replicate previews.length (none : Option ResolvedImage))[j]? =
        some (some s) → s.index = j := by
    intro j s hj
    rw [List.getElem?_replicate] at hj
    by_cases hlt : j < previews.length
    · rw [if_pos hlt] at hj
      cases hj
    · rw [if_neg hlt] at hj
      cases hj
  have := assembleSlots_indexOK resolve order _ h0 i r hir
  omega

/-- Witness for `resolved_images_sorted`: five descriptors completing in
the order 3, 0, 4, 2, 1, with descriptor 2 failing. -/
theorem resolved_images_sorted_witness :
    ordFive.Perm prevFive
    ∧ (resolveImages prevFive resolveFailTwo ordFive).Pairwise (fun a b => a.index < b.index) :=
  ⟨by decide, resolved_images_sorted prevFive resolveFailTwo ordFive (by decide)⟩

/-- Value of one slot of the finished slot list, when all task indices
are distinct: the unique task with that index decides it, no matter where
in the completion order it sits. -/
theorem assembleSlots_getElem_char (resolve : PreviewItem → Option String) :
    ∀ (order : List PreviewItem) (slots : List (Option ResolvedImage)) (i : Nat),
      (order.map (fun it => it.index)).Nodup → i < slots.length →
      (assembleSlots resolve order slots)[i]? =
        (match order.find? (fun it => it.index == i) with
         | some it =>
           (match resolve it with
            | some u => some (some (buildResolvedImage it u))
            | none => slots[i]?)
         | none => slots[i]?) := by
  intro order
  induction order with
  | nil => intro slots i _ _; rfl
  | cons item rest ih =>
    intro slots i hnd hlen
    have hnd' : (rest.map (fun it => it.index)).Nodup := by
      simp only [List.map_cons, List.nodup_cons] at hnd
      exact hnd.2
    have hnotin : item.index ∉ rest.map (fun it => it.index) := by
      simp only [List.map_cons, List.nodup_cons] at hnd
      exact hnd.1
    by_cases hit : item.index = i
    · subst hit
      have hpred : (fun it => it.index == item.index) item = true := by simp
      have hfcons : (item :: rest).find? (fun it => it.index == item.index) = some item :=
        List.find?_cons_of_pos _ hpred
      rw [hfcons]
      have hrestnone : rest.find? (fun it => it.index == item.index) = none := by
        rw [List.find?_eq_none]
        intro x hx
        simp only [beq_eq_false_iff_ne, ne_eq, Bool.not_eq_true, beq_iff_eq]
        intro hxe
        exact hnotin (hxe ▸ List.mem_map_of_mem (fun it => it.index) hx)
      cases hres : resolve item with
      | some u =>
        simp only [assembleSlots, hres]
        rw [ih (slots.set item.index (some (buildResolvedImage item u))) item.index hnd'
          (by rw [List.length_set]; exact hlen)]
        rw [hrestnone, List.getElem?_set_self hlen]
      | none =>
        simp only [assembleSlots, hres]
        rw [ih slots item.index hnd' hlen, hrestnone]
    · have hpred : ¬ ((fun it => it.index == i) item = true) := by simp [hit]
      have hfcons : (item :: rest).find? (fun it => it.index == i)
          = rest.find? (fun it => it.index == i) :=
        List.find?_cons_of_neg _ hpred
      rw [hfcons]
      cases hres : resolve item with
      | some u =>
        simp only [assembleSlots, hres]
        rw [ih (slots.set item.index (some (buildResolvedImage item u))) i hnd'
          (by rw [List.length_set]; exact hlen)]
        have hset : (slots.set item.index (some (buildResolvedImage item u)))[i]? = slots[i]? :=
          List.getElem?_set_ne hit
        rw [hset]
      | none =>
        simp only [assembleSlots, hres]
        exact ih slots i hnd' hlen

/-- C6.  With canonically indexed descriptors (index = list position) and
any completion order, the resolver returns exactly the in-order assembly:
one entry per succeeding descriptor, carrying its original index
unchanged via `buildResolvedImage`, and no entry at all for a failing
descriptor. -/
theorem resolved_images_partial_failure (previews : List PreviewItem)
    (resolve : PreviewItem → Option String) (order : List PreviewItem)
    (hperm : order.Perm previews)
    (hcanon : previews.map (fun it => it.index) = List.range previews.length) :
    resolveImages previews resolve order = inOrderAssembly previews resolve := by
  have hidx : ∀ i, (h : i < previews.length) → previews[i].index = i := by
    intro i h
    have h1 : (previews.map (fun it => it.index))[i]? = some previews[i].index := by
      rw [List.getElem?_map, List.getElem?_eq_getElem h]
      rfl
    rw [hcanon, List.getElem?_range (by simpa using h)] at h1
    exact (Option.some.injEq _ _ ▸ h1).symm
  have huniq : ∀ it, it ∈ previews → ∀ (i : Nat) (hi : i < previews.length), it.index = i →
      it = previews[i] := by
    intro it hmem i hi hidxeq
    rcases List.mem_iff_getElem.mp hmem with ⟨j, hj, hjit⟩
    have hji : it.index = j := by rw [← hjit]; exact hidx j hj
    have : j = i := by omega
    subst this
    exact hjit.symm
  have hnodup : (order.map (fun it => it.index)).Nodup :=
    ((hperm.map _).nodup_iff).mpr (hcanon ▸ List.nodup_range previews.length)
  have hlen : (assembleSlots resolve order
      (List.replicate previews.length (none : Option ResolvedImage))).length
        = previews.length := by
    rw [assembleSlots_length, List.length_replicate]
  have hfind : ∀ i, (hi : i < previews.length) →
      order.find? (fun it => it.index == i) = some previews[i] := by
    intro i hi
    have hmemp : previews[i] ∈ order := hperm.mem_iff.mpr (List.getElem_mem hi)
    have hpredp : (fun it => it.index == i) previews[i] = true := by simp [hidx i hi]
    have hsome : (order.find? (fun it => it.index == i)).isSome :=
      List.find?_isSome.mpr ⟨previews[i], hmemp, hpredp⟩
    rcases Option.isSome_iff_exists.mp hsome with ⟨it, hitfind⟩
    have h1 : it.index = i := by
      have := List.find?_some hitfind
      simpa using this
    have h2 : it ∈ previews := hperm.mem_iff.mp (List.mem_of_find?_eq_some hitfind)
    rw [hitfind]
    rw [huniq it h2 i hi h1]
  have hchar : ∀ i, (hi : i < previews.length) →
      (assembleSlots resolve order (List.replicate previews.length none))[i]?
        = some ((resolve previews[i]).map (buildResolvedImage previews[i])) := by
    intro i hi
    rw [assembleSlots_getElem_char resolve order _ i hnodup
      (by rw [List.length_replicate]; exact hi)]
    rw [hfind i hi]
    have hred : (match some previews[i] with
         | some it =>
           (match resolve it with
            | some u => some (some (buildResolvedImage it u))
            | none => (List.replicate previews.length (none : Option ResolvedImage))[i]?)
         | none => (List.replicate previews.length (none : Option ResolvedImage))[i]?)
        = (match resolve previews[i] with
           | some u => some (some (buildResolvedImage previews[i] u))
           | none => (List.replicate previews.length (none : Option ResolvedImage))[i]?) := rfl
    rw [hred]
    cases hres : resolve previews[i] with
    | some u => rfl
    | none => simp [List.getElem?_replicate, hi]
  have hfinal : assembleSlots resolve order (List.replicate previews.length none)
      = previews.map (fun it => (resolve it).map (buildResolvedImage it)) := by
    apply List.ext_getElem?
    intro i
    by_cases hi : i < previews.length
    · rw [hchar i hi, List.getElem?_map, List.getElem?_eq_getElem hi]
      rfl
    · have h1 : (assembleSlots resolve order (List.replicate previews.length none))[i]? = none :=
        List.getElem?_eq_none (by rw [hlen]; omega)
      have h2 : (previews.map (fun it => (resolve it).map (buildResolvedImage it)))[i]? = none :=
        List.getElem?_eq_none (by rw [List.length_map]; omega)
      rw [h1, h2]
  unfold resolveImages inOrderAssembly
  rw [hfinal, List.filterMap_map]
  rfl

/-- Witness for `resolved_images_partial_failure`: five descriptors with
index 2 failing yield exactly the four entries with indices 0, 1, 3, 4 in
that order. -/
theorem resolved_images_partial_failure_witness :
    (ordFive.Perm prevFive
      ∧ prevFive.map (fun it => it.index) = List.range prevFive.length)
    ∧ resolveImages prevFive resolveFailTwo ordFive = inOrderAssembly prevFive resolveFailTwo
    ∧ (resolveImages prevFive resolveFailTwo ordFive).map (fun r => r.index) = [0, 1, 3, 4] :=
  ⟨⟨by decide, by decide⟩,
    resolved_images_partial_failure prevFive resolveFailTwo ordFive (by decide) (by decide),
    by decide⟩

/-! ## C4: cursor-chain gaps map to the 404 error -/

/-- One unfolding of the replay loop when the fetch of the current page
succeeds. -/
theorem replayLoop_fetch_some (fetchList : String → Option GalleryListResult) (use_ex : Bool)
    (keyword : String) (p r : Nat) (c : PCache) (res : GalleryListResult)
    (hf : fetchList (build_search_url use_ex keyword
        (if 1 < p then dictGet c (pageKey keyword (p - 1)) else none)) = some res) :
    replayLoop fetchList use_ex keyword p (r + 1) c
      = (match res.pagination.next_id with
         | some nid =>
           if nid.isEmpty then Except.error (SearchErr.pageUnavailable p)
           else replayLoop fetchList use_ex keyword (p + 1) r ((pageKey keyword p, nid) :: c)
         | none => Except.error (SearchErr.pageUnavailable p)) := by
  simp only [replayLoop]
  rw [hf]

/-- Replaying from page `start` with `r` pages to go hits the 404 at the
first gap page: the chain described by `pageRes` has truthy cursors
strictly before `gap` and none at `gap`. -/
theorem replayLoop_gap (fetchList : String → Option GalleryListResult) (use_ex : Bool)
    (keyword : String) (pageRes : Nat → GalleryListResult) (gap : Nat)
    (hfetch : ∀ i, 1 ≤ i → i ≤ gap →
      fetchList (build_search_url use_ex keyword (chainPrev pageRes i)) = some (pageRes i))
    (hcursors : ∀ i, 1 ≤ i → i < gap → optStrTruthy (pageRes i).pagination.next_id = true)
    (hgap : optStrTruthy (pageRes gap).pagination.next_id = false) :
    ∀ (r start : Nat) (c : PCache),
      1 ≤ start → start ≤ gap → gap < start + r →
      (start = 1 ∨ (2 ≤ start ∧
        ∃ s, (pageRes (start - 1)).pagination.next_id = some s ∧ s.isEmpty = false ∧
          dictGet c (pageKey keyword (start - 1)) = some s)) →
      replayLoop fetchList use_ex keyword start r c
        = Except.error (SearchErr.pageUnavailable gap) := by
  intro r
  induction r with
  | zero => intro start c h1 h2 h3 _; omega
  | succ r ih =>
    intro start c h1 h2 h3 hinv
    have hprev : (if 1 < start then dictGet c (pageKey keyword (start - 1)) else none)
        = chainPrev pageRes start := by
      rcases hinv with h | ⟨h2s, s, hs1, hs2, hs3⟩
      · subst h
        simp [chainPrev]
      · rw [if_pos (by omega), hs3]
        unfold chainPrev
        rw [if_neg (by omega), hs1]
    have hstep := replayLoop_fetch_some fetchList use_ex keyword start r c (pageRes start)
      (by rw [hprev]; exact hfetch start h1 h2)
    rw [hstep]
    by_cases hsg : start = gap
    · subst hsg
      cases hnid : (pageRes start).pagination.next_id with
      | none => rfl
      | some nid =>
        have hempty : nid.isEmpty = true := by
          rw [hnid] at hgap
          simpa [optStrTruthy] using hgap
        simp [hempty]
    · have hlt : start < gap := by omega
      have htr := hcursors start h1 hlt
      cases hnid : (pageRes start).pagination.next_id with
      | none =>
        rw [hnid] at htr
        simp [optStrTruthy] at htr
      | some nid =>
        have hnemp : nid.isEmpty = false := by
          rw [hnid] at htr
          simpa [optStrTruthy] using htr
        simp only [hnemp, Bool.false_eq_true, if_false]
        apply ih (start + 1) ((pageKey keyword start, nid) :: c) (by omega) (by omega) (by omega)
        refine Or.inr ⟨by omega, nid, ?_, hnemp, ?_⟩
        · have hs : start + 1 - 1 = start := by omega
          rw [hs]
          exact hnid
        · have hs : start + 1 - 1 = start := by omega
          rw [hs]
          simp [dictGet]

/-- C4.  For every search keyword and requested page `page ≥ 2` whose
page-`page-1` cursor link is cold, if the replayed chain reaches a page
`gap ≤ page-1` whose parsed result has no (truthy) next-cursor — all
earlier pages having cursors — then resolution fails with the
`pageUnavailable` error, whose HTTP status is 404, not a server error. -/
theorem search_gap_page_unavailable (fetchList : String → Option GalleryListResult)
    (use_ex : Bool) (keyword : String) (pageRes : Nat → GalleryListResult)
    (page gap : Nat) (c : PCache)
    (hpage : 2 ≤ page) (hgap1 : 1 ≤ gap) (hgaplt : gap ≤ page - 1)
    (hmiss : optStrTruthy (dictGet c (pageKey keyword (page - 1))) = false)
    (hfetch : ∀ i, 1 ≤ i → i ≤ gap →
      fetchList (build_search_url use_ex keyword (chainPrev pageRes i)) = some (pageRes i))
    (hcursors : ∀ i, 1 ≤ i → i < gap → optStrTruthy (pageRes i).pagination.next_id = true)
    (hgapnone : optStrTruthy (pageRes gap).pagination.next_id = false) :
    resolve_search_cursor fetchList use_ex keyword page c
      = Except.error (SearchErr.pageUnavailable gap)
    ∧ searchErrStatus (SearchErr.pageUnavailable gap) = 404 := by
  have hrep : replayLoop fetchList use_ex keyword 1 (page - 1) c
      = Except.error (SearchErr.pageUnavailable gap) := by
    have := replayLoop_gap fetchList use_ex keyword pageRes gap hfetch hcursors hgapnone
      (page - 1) 1 c (Nat.le_refl 1) hgap1 (by omega) (Or.inl rfl)
    -- `replayLoop ... start r c` with start = 1, r = page - 1
    exact this
  constructor
  · have hform : resolve_search_cursor fetchList use_ex keyword page c
        = (match replayLoop fetchList use_ex keyword 1 (page - 1) c with
           | .error e => .error e
           | .ok c2 => .ok (dictGet c2 (pageKey keyword (page - 1)), c2)) := by
      unfold resolve_search_cursor
      rw [if_pos (by omega : 1 < page)]
      simp only [hmiss, Bool.false_eq_true, if_false]
    rw [hform, hrep]
  · rfl

/-- Witness for `search_gap_page_unavailable`: requesting page 2 of a
one-page catalog (page 1 parses with no next-cursor) on a cold pagination
cache returns the 404 `pageUnavailable` at page 1. -/
theorem search_gap_page_unavailable_witness :
    (optStrTruthy (dictGet ([] : PCache) (pageKey "k" 1)) = false
      ∧ optStrTruthy (gapPageRes 1).pagination.next_id = false)
    ∧ (resolve_search_cursor gapFetchList false "k" 2 []
        = Except.error (SearchErr.pageUnavailable 1)
      ∧ searchErrStatus (SearchErr.pageUnavailable 1) = 404) := by
  refine ⟨⟨by decide, by decide⟩, ?_⟩
  exact search_gap_page_unavailable gapFetchList false "k" gapPageRes 2 1 []
    (by decide) (by decide) (by decide) (by decide)
    (by
      intro i h1 h2
      have hi : i = 1 := by omega
      subst hi
      decide)
    (by intro i h1 h2; omega)
    (by decide)

end EhApiModel
